import Mathlib

/-!
Verification of the memory git-sync pipeline (`src/memory/git-sync.ts`).

The manager is embedded shallowly.  Subprocess execution is modelled by an
oracle `World : Nat → ExecResult` giving the outcome of the n-th subprocess
call of a run; the state `St` carries the call counter and the trace of
calls issued so far (each recorded with its working directory, arguments,
and — for hooks — environment).  Phases (`pull`, `commit`, `push`) return a
`GitSyncResult` and never throw, matching the source's try/catch structure;
`init`-style thrown errors (hook failures) are modelled with `Except`.
A thrown subprocess failure carries the string Node's `String(error)`
produces for `child_process.exec`: "Error: Command failed: <cmd>\n<stderr>".
-/

namespace GitSync

/-- Outcome of one subprocess invocation, supplied by the environment:
either captured stdout/stderr on exit 0, or the captured stderr of a
nonzero exit. -/
inductive ExecResult where
  | ok (stdout stderr : String)
  | fail (stderr : String)
deriving DecidableEq, Repr

/-- The environment: outcome of the n-th subprocess call of a run. -/
def World : Type := Nat → ExecResult

/-- One recorded subprocess invocation: a git command run in a working
directory, or a hook executable run with a working directory and an
explicit environment. -/
inductive Call where
  | git (cwd : String) (args : List String)
  | hook (path : String) (cwd : String) (env : List (String × String))
deriving DecidableEq, Repr

/-- Run state: how many subprocess calls happened and their trace. -/
structure St where
  idx : Nat
  trace : List Call
deriving DecidableEq, Repr

/-- `GitSyncResult` from git-sync.ts. -/
structure GitSyncResult where
  success : Bool
  pulled : Bool
  pushed : Bool
  committed : Bool
  changes : Option (List String) := none
  error : Option String := none
deriving DecidableEq, Repr

/-- `GitSyncConfig` (fields used by the manager; `hooks.preSync` and
`hooks.postSync` are flattened to `preSync`/`postSync`).
`conflictStrategy` is kept as an optional string so that the source's
`default` switch case (unset or unrecognized value) is expressible. -/
structure GitSyncConfig where
  repository : String
  branch : Option String := none
  autoPull : Bool := false
  autoCommit : Bool := false
  autoPush : Bool := false
  conflictStrategy : Option String := none
  paths : Option (List String) := none
  excludePaths : Option (List String) := none
  commitMessage : Option String := none
  preSync : Option String := none
  postSync : Option String := none
deriving DecidableEq, Repr

/-! ## String helpers (kernel-reducible stand-ins for JS string methods) -/

/-- JS whitespace test for the characters relevant to `String.prototype.trim`
on git output. -/
def isWs (c : Char) : Bool := c = ' ' || c = '\n' || c = '\t' || c = '\r'

/-- `s.trim()`. -/
def trimStr (s : String) : String :=
  String.mk (((s.data.dropWhile isWs).reverse.dropWhile isWs).reverse)

/-- `s.split("\n")` (keeps empty segments, like JS). -/
def splitNl : List Char → List Char → List String
  | [], cur => [String.mk cur]
  | c :: cs, cur =>
    if c = '\n' then String.mk cur :: splitNl cs []
    else splitNl cs (cur ++ [c])

/-- `s.split("\n")` on a string. -/
def splitLines (s : String) : List String := splitNl s.data []

/-- `s.slice(3)`. -/
def dropStr (n : Nat) (s : String) : String := String.mk (s.data.drop n)

/-- `arg.includes(" ")`. -/
def containsSpace (s : String) : Bool := s.data.contains ' '

/-- First-occurrence replacement on character lists
(JS `String.prototype.replace` with a string pattern). -/
def replaceFirstAux (pat rep : List Char) : List Char → List Char
  | [] => []
  | c :: cs =>
    if pat.isPrefixOf (c :: cs) then rep ++ (c :: cs).drop pat.length
    else c :: replaceFirstAux pat rep cs

/-- `s.replace(pat, rep)`: replaces the first occurrence only. -/
def replaceFirst (s pat rep : String) : String :=
  String.mk (replaceFirstAux pat.data rep.data s.data)

/-! ## Command construction and the subprocess runner -/

/-- From `runGit`: an argument is wrapped in double quotes exactly when it
contains a space; no other escaping is applied. -/
def quoteArg (arg : String) : String :=
  if containsSpace arg then "\"" ++ arg ++ "\"" else arg

/-- The shell command string handed to `exec`:
`git ${args.map(quote).join(" ")}`. -/
def buildGitCmd (args : List String) : String :=
  "git " ++ String.intercalate " " (args.map quoteArg)

/-- `String(error)` for a rejected `child_process.exec` promise. -/
def execErrorString (cmd stderr : String) : String :=
  "Error: Command failed: " ++ cmd ++ "\n" ++ stderr

/-- `runGit(args)`: issues one subprocess call in the workspace; a nonzero
exit becomes a thrown error string built from the command and its captured
stderr. -/
def runGit (ws : String) (w : World) (s : St) (args : List String) :
    Except String (String × String) × St :=
  let s' : St := { idx := s.idx + 1, trace := s.trace ++ [Call.git ws args] }
  match w s.idx with
  | ExecResult.ok out err => (Except.ok (out, err), s')
  | ExecResult.fail stderr =>
    (Except.error (execErrorString (buildGitCmd args) stderr), s')

/-- Run a list of git commands in order, stopping at the first failure
(models consecutive `await this.runGit(...)` statements). -/
def runGitSeq (ws : String) (w : World) (s : St) :
    List (List String) → Except String Unit × St
  | [] => (Except.ok (), s)
  | args :: rest =>
    match runGit ws w s args with
    | (Except.ok _, s') => runGitSeq ws w s' rest
    | (Except.error e, s') => (Except.error e, s')

/-! ## Status queries -/

/-- `hasChanges()`: `git status --porcelain`, nonempty trimmed stdout; a
failing status call is caught and reported as "no changes". -/
def hasChanges (ws : String) (w : World) (s : St) : Bool × St :=
  match runGit ws w s ["status", "--porcelain"] with
  | (Except.ok (out, _), s') => (decide (0 < (trimStr out).length), s')
  | (Except.error _, s') => (false, s')

/-- `getChangedFiles()`: status lines with the 3-character status prefix
stripped; a failing status call is caught and yields `[]`. -/
def getChangedFiles (ws : String) (w : World) (s : St) : List String × St :=
  match runGit ws w s ["status", "--porcelain"] with
  | (Except.ok (out, _), s') =>
    (((splitLines (trimStr out)).filter (fun l => l ≠ "")).map (dropStr 3), s')
  | (Except.error _, s') => ([], s')

/-! ## Conflict strategy and pull -/

/-- `resolveGitStrategy`. -/
def resolveGitStrategy (strategy : Option String) : Option String :=
  match strategy with
  | some "local-wins" => some "ours"
  | some "remote-wins" => some "theirs"
  | some "manual" => none
  | some "timestamp-wins" => none
  | some "merge-markers" => none
  | _ => some "ours"

/-- Argument list of the underlying `git pull` invocation. -/
def pullArgs (strategy : Option String) (branch : String) : List String :=
  ["pull"] ++
    (match strategy with
     | some st => ["--strategy=" ++ st]
     | none => []) ++
    ["origin", branch]

/-- The no-op / disabled-phase result. -/
def noopResult : GitSyncResult :=
  { success := true, pulled := false, pushed := false, committed := false }

/-- `pull()`. -/
def pull (ws : String) (cfg : GitSyncConfig) (w : World) (s : St) :
    GitSyncResult × St :=
  if cfg.autoPull = false then (noopResult, s)
  else
    let strategy := resolveGitStrategy cfg.conflictStrategy
    let branch := cfg.branch.getD "main"
    match runGit ws w s ["fetch", "origin", branch] with
    | (Except.error _, s1) => (noopResult, s1)
    | (Except.ok _, s1) =>
      match runGit ws w s1 ["rev-parse", "HEAD"] with
      | (Except.error _, s2) =>
        match runGit ws w s2 ["checkout", "-b", branch] with
        | (Except.ok _, s3) => (noopResult, s3)
        | (Except.error e, s3) =>
          ({ success := false, pulled := false, pushed := false,
             committed := false, error := some e }, s3)
      | (Except.ok _, s2) =>
        match runGit ws w s2 (pullArgs strategy branch) with
        | (Except.ok _, s3) =>
          ({ success := true, pulled := true, pushed := false,
             committed := false }, s3)
        | (Except.error e, s3) =>
          ({ success := false, pulled := false, pushed := false,
             committed := false, error := some e }, s3)

/-! ## Commit -/

/-- `buildCommitMessage()`: template with `{timestamp}` replaced by the
current time (passed in as `now`). -/
def buildCommitMessage (cfg : GitSyncConfig) (now : String) : String :=
  replaceFirst (cfg.commitMessage.getD "chore: agent memory sync {timestamp}")
    "{timestamp}" now

/-- The staging commands of `commit()`: one `git add <pattern>` per
configured path pattern when `paths` is non-empty, else `git add .`. -/
def commitAddCalls (cfg : GitSyncConfig) : List (List String) :=
  match cfg.paths with
  | some ps => if 0 < ps.length then ps.map (fun p => ["add", p]) else [["add", "."]]
  | none => [["add", "."]]

/-- The unstaging commands of `commit()`: one `git reset -- <pattern>` per
configured exclude pattern. -/
def commitResetCalls (cfg : GitSyncConfig) : List (List String) :=
  match cfg.excludePaths with
  | some es => if 0 < es.length then es.map (fun p => ["reset", "--", p]) else []
  | none => []

/-- `commit(message?)`. -/
def commit (ws : String) (cfg : GitSyncConfig) (w : World)
    (message : Option String) (now : String) (s : St) : GitSyncResult × St :=
  if cfg.autoCommit = false then (noopResult, s)
  else
    match hasChanges ws w s with
    | (false, s1) => (noopResult, s1)
    | (true, s1) =>
      match getChangedFiles ws w s1 with
      | (changes, s2) =>
        let msg := message.getD (buildCommitMessage cfg now)
        match runGitSeq ws w s2
            (commitAddCalls cfg ++ commitResetCalls cfg ++ [["commit", "-m", msg]]) with
        | (Except.ok _, s3) =>
          ({ success := true, pulled := false, pushed := false,
             committed := true, changes := some changes }, s3)
        | (Except.error e, s3) =>
          ({ success := false, pulled := false, pushed := false,
             committed := false, error := some e }, s3)

/-! ## Push -/

/-- `push()`. -/
def push (ws : String) (cfg : GitSyncConfig) (w : World) (s : St) :
    GitSyncResult × St :=
  if cfg.autoPush = false then (noopResult, s)
  else
    match runGit ws w s ["push", "-u", "origin", cfg.branch.getD "main"] with
    | (Except.ok _, s1) =>
      ({ success := true, pulled := false, pushed := true, committed := false }, s1)
    | (Except.error e, s1) =>
      ({ success := false, pulled := false, pushed := false,
         committed := false, error := some e }, s1)

/-! ## Hooks and the composed pipeline -/

/-- The environment a hook receives: the ambient process environment plus
the two sync-specific variables. -/
def hookEnv (penv : List (String × String)) (ws ty : String) :
    List (String × String) :=
  penv ++ [("OPENCLAW_WORKSPACE", ws), ("OPENCLAW_SYNC_TYPE", ty)]

/-- `runHook(hookPath, type)`: invokes the hook executable with the
workspace as working directory; a nonzero exit is rethrown. -/
def runHook (ws : String) (penv : List (String × String)) (w : World)
    (s : St) (hookPath ty : String) : Except String Unit × St :=
  let s' : St :=
    { idx := s.idx + 1,
      trace := s.trace ++ [Call.hook hookPath ws (hookEnv penv ws ty)] }
  match w s.idx with
  | ExecResult.ok _ _ => (Except.ok (), s')
  | ExecResult.fail stderr =>
    (Except.error (execErrorString hookPath stderr), s')

/-- The pre-hook step of `sync()` (lines 254–256): run `hooks.preSync` when
configured, else do nothing. -/
def syncPre (ws : String) (cfg : GitSyncConfig) (penv : List (String × String))
    (w : World) (s : St) : Except String Unit × St :=
  match cfg.preSync with
  | some p => runHook ws penv w s p "pre"
  | none => (Except.ok (), s)

/-- The post-hook step of `sync()` (lines 277–279). -/
def syncPost (ws : String) (cfg : GitSyncConfig) (penv : List (String × String))
    (w : World) (s : St) : Except String Unit × St :=
  match cfg.postSync with
  | some p => runHook ws penv w s p "post"
  | none => (Except.ok (), s)

/-- `sync()`: pre-hook, pull, commit, push, post-hook, short-circuiting on
the first phase whose result has `success = false`; hook failures are
rethrown (`Except.error`), not folded into the result. -/
def sync (ws : String) (cfg : GitSyncConfig) (penv : List (String × String))
    (w : World) (now : String) (s : St) : Except String GitSyncResult × St :=
  match syncPre ws cfg penv w s with
  | (Except.error e, s1) => (Except.error e, s1)
  | (Except.ok _, s1) =>
    match pull ws cfg w s1 with
    | (pr, s2) =>
      if pr.success = false then (Except.ok pr, s2)
      else
        match commit ws cfg w none now s2 with
        | (cr, s3) =>
          if cr.success = false then (Except.ok cr, s3)
          else
            match push ws cfg w s3 with
            | (hr, s4) =>
              if hr.success = false then (Except.ok hr, s4)
              else
                match syncPost ws cfg penv w s4 with
                | (Except.error e, s5) => (Except.error e, s5)
                | (Except.ok _, s5) =>
                  (Except.ok { success := true, pulled := pr.pulled,
                               committed := cr.committed, pushed := hr.pushed,
                               changes := cr.changes }, s5)

/-! ## Index (staging) semantics

Abstract semantics of the staging commands `commit()` issues, over an
arbitrary pattern-matching relation `M` (pattern → file → matches) and a
set `dirty` of changed working-tree files: `git add <p>` stages the dirty
files matching `p` (`git add .` stages all of them), `git reset -- <p>`
unstages the files matching `p`; other commands leave the index alone. -/
def stageStep (M : String → String → Bool) (dirty : List String)
    (idx : List String) : Call → List String
  | Call.git _ args =>
    match args with
    | ["add", p] => if p = "." then idx ++ dirty else idx ++ dirty.filter (fun f => M p f)
    | ["reset", "--", p] => idx.filter (fun f => !(M p f))
    | _ => idx
  | _ => idx

/-- The staged set after a sequence of calls, starting from an empty index. -/
def stagedAfter (M : String → String → Bool) (dirty : List String)
    (calls : List Call) : List String :=
  calls.foldl (stageStep M dirty) []

/-! ## Shell word splitting

A minimal model of how `/bin/sh` re-tokenizes the command string
`runGit` builds (double quotes toggle quoting, unquoted spaces separate
words, quote characters themselves are consumed).  Used to state that the
source's quoting scheme does not deliver every argument intact. -/
def shellSplitAux : List Char → Bool → List Char → Bool → List String
  | [], _, cur, started => if started then [String.mk cur] else []
  | c :: cs, inQ, cur, started =>
    if c = '"' then shellSplitAux cs (!inQ) cur true
    else if c = ' ' then
      if inQ then shellSplitAux cs inQ (cur ++ [c]) true
      else (if started then [String.mk cur] else []) ++ shellSplitAux cs false [] false
    else shellSplitAux cs inQ (cur ++ [c]) true

/-- The words the shell hands to the subprocess for a command string. -/
def shellSplit (s : String) : List String := shellSplitAux s.data false [] false

/-! ## The SyncResult invariant -/

/-- The claimed invariant on a `GitSyncResult` under a configuration:
failure implies an error message and all phase booleans cleared; success
with a disabled phase implies that phase's boolean is cleared. -/
def resultInvariant (cfg : GitSyncConfig) (r : GitSyncResult) : Prop :=
  (r.success = false →
    r.error.isSome = true ∧ r.pulled = false ∧ r.pushed = false ∧ r.committed = false) ∧
  (r.success = true →
    (cfg.autoPull = false → r.pulled = false) ∧
    (cfg.autoCommit = false → r.committed = false) ∧
    (cfg.autoPush = false → r.pushed = false))

/-! ## Concrete inputs used by witnesses and counterexamples -/

/-- Fresh run state. -/
def st0 : St := ⟨0, []⟩

/-- A world in which every subprocess call succeeds with empty output. -/
def wOk : World := fun _ => ExecResult.ok "" ""

/-- A world in which every subprocess call fails. -/
def wFail : World := fun _ => ExecResult.fail "boom"

/-- Pull-enabled configuration with the `remote-wins` strategy. -/
def cfgPull : GitSyncConfig :=
  { repository := "r", autoPull := true, conflictStrategy := some "remote-wins" }

/-- Commit-enabled configuration with include and exclude patterns. -/
def cfgPaths : GitSyncConfig :=
  { repository := "r", autoCommit := true, paths := some ["docs/a", "docs/b"],
    excludePaths := some ["docs/a/x"] }

/-- A world whose status queries report two changed files. -/
def wChanges : World := fun _ => ExecResult.ok "M  a.md\nM  docs/a/x.md" ""

/-- Commit-enabled configuration without path filters. -/
def cfgAC : GitSyncConfig := { repository := "r", autoCommit := true }

/-- Push-enabled configuration. -/
def cfgPush : GitSyncConfig := { repository := "r", autoPush := true }

/-- Pull-enabled configuration with a pre-sync hook. -/
def cfgPreHook : GitSyncConfig :=
  { repository := "r", autoPull := true, preSync := some "/hooks/pre.sh" }

/-- All-phases-disabled configuration with a pre-sync hook. -/
def cfgOffHook : GitSyncConfig :=
  { repository := "r", preSync := some "/hooks/pre9.sh" }

/-- All-phases-disabled configuration without hooks. -/
def cfgOff : GitSyncConfig := { repository := "r" }

/-- Pull-enabled configuration without hooks. -/
def cfgAP : GitSyncConfig := { repository := "r", autoPull := true }

/-- A world in which the third subprocess call (the `git pull`) fails. -/
def wPullFails : World := fun n =>
  if n = 2 then ExecResult.fail "merge conflict" else ExecResult.ok "" ""

/-! ## Helper lemmas -/

theorem runGit_ok (ws : String) (w : World) (s : St) (args : List String)
    (o e : String) (h : w s.idx = ExecResult.ok o e) :
    runGit ws w s args =
      (Except.ok (o, e), ⟨s.idx + 1, s.trace ++ [Call.git ws args]⟩) := by
  simp [runGit, h]

theorem runGit_fail (ws : String) (w : World) (s : St) (args : List String)
    (e : String) (h : w s.idx = ExecResult.fail e) :
    runGit ws w s args =
      (Except.error (execErrorString (buildGitCmd args) e),
       ⟨s.idx + 1, s.trace ++ [Call.git ws args]⟩) := by
  simp [runGit, h]

/-- A failing `runGit` call throws exactly the command-failed string built
from its command and the captured stderr. -/
theorem runGit_error_shape (ws : String) (w : World) (s : St)
    (args : List String) (e : String)
    (h : (runGit ws w s args).1 = Except.error e) :
    ∃ stderr, e = execErrorString (buildGitCmd args) stderr := by
  unfold runGit at h
  cases hw : w s.idx <;> rw [hw] at h <;> simp at h
  exact ⟨_, h.symm⟩

/-- A sequence of git calls whose subprocess responses all succeed runs to
completion, advancing the counter by its length and appending exactly one
trace entry per command, in order. -/
theorem runGitSeq_ok (ws : String) (w : World) :
    ∀ (l : List (List String)) (s : St),
      (∀ k, k < l.length → ∃ o e, w (s.idx + k) = ExecResult.ok o e) →
      runGitSeq ws w s l =
        (Except.ok (),
         ⟨s.idx + l.length, s.trace ++ l.map (fun a => Call.git ws a)⟩) := by
  intro l
  induction l with
  | nil =>
    intro s _
    simp [runGitSeq]
  | cons a rest ih =>
    intro s h
    obtain ⟨o, e, hoe⟩ := h 0 (by simp)
    have h0 : w s.idx = ExecResult.ok o e := by simpa using hoe
    simp only [runGitSeq, runGit_ok ws w s a o e h0]
    rw [ih ⟨s.idx + 1, s.trace ++ [Call.git ws a]⟩ ?_]
    · simp only [Prod.mk.injEq, St.mk.injEq, true_and]
      constructor
      · simp [List.length_cons]
        omega
      · simp
    · intro k hk
      obtain ⟨o', e', h'⟩ := h (k + 1) (by simpa using Nat.succ_lt_succ hk)
      exact ⟨o', e', by simpa [Nat.add_assoc, Nat.add_comm 1 k] using h'⟩

/-- An error out of a git-call sequence is a command-failed string for one
of the commands. -/
theorem runGitSeq_error_shape (ws : String) (w : World) :
    ∀ (l : List (List String)) (s : St) (e : String),
      (runGitSeq ws w s l).1 = Except.error e →
      ∃ args stderr, e = execErrorString (buildGitCmd args) stderr := by
  intro l
  induction l with
  | nil =>
    intro s e h
    simp [runGitSeq] at h
  | cons a rest ih =>
    intro s e h
    rw [runGitSeq] at h
    cases hr : runGit ws w s a with
    | mk r s' =>
      rw [hr] at h
      cases r with
      | ok v => exact ih s' e h
      | error msg =>
        simp at h
        subst h
        obtain ⟨stderr, hst⟩ := runGit_error_shape ws w s a msg (by rw [hr])
        exact ⟨a, stderr, hst⟩

/-- A git-call sequence whose first `l1.length` subprocess responses
succeed and whose next response fails stops at the failing command,
throwing that command's command-failed string, with one trace entry per
executed command (the commands after the failing one never run). -/
theorem runGitSeq_fail_at (ws : String) (w : World) :
    ∀ (l1 : List (List String)) (args : List String) (l2 : List (List String))
      (s : St),
      (∀ k, k < l1.length → ∃ o e, w (s.idx + k) = ExecResult.ok o e) →
      ∀ e, w (s.idx + l1.length) = ExecResult.fail e →
      runGitSeq ws w s (l1 ++ args :: l2) =
        (Except.error (execErrorString (buildGitCmd args) e),
         ⟨s.idx + l1.length + 1,
          s.trace ++ l1.map (fun a => Call.git ws a) ++ [Call.git ws args]⟩) := by
  intro l1
  induction l1 with
  | nil =>
    intro args l2 s _ e he
    rw [List.nil_append, runGitSeq, runGit_fail ws w s args e (by simpa using he)]
    simp
  | cons a rest ih =>
    intro args l2 s h e he
    obtain ⟨o, e0, hoe⟩ := h 0 (by simp)
    have h0 : w s.idx = ExecResult.ok o e0 := by simpa using hoe
    rw [List.cons_append]
    simp only [runGitSeq, runGit_ok ws w s a o e0 h0]
    rw [ih args l2 ⟨s.idx + 1, s.trace ++ [Call.git ws a]⟩ ?_ e ?_]
    · simp only [Prod.mk.injEq, St.mk.injEq, true_and, List.map_cons]
      constructor
      · simp [List.length_cons]
        omega
      · simp
    · intro k hk
      obtain ⟨o', e', h'⟩ := h (k + 1) (by simpa using Nat.succ_lt_succ hk)
      exact ⟨o', e', by simpa [Nat.add_assoc, Nat.add_comm 1 k] using h'⟩
    · exact (by simpa [List.length_cons, Nat.add_assoc,
        Nat.add_comm 1 rest.length] using he)

/-- The result invariant holds for every `pull()` outcome. -/
theorem pull_inv (ws : String) (cfg : GitSyncConfig) (w : World) (s : St) :
    resultInvariant cfg (pull ws cfg w s).1 := by
  unfold pull
  split
  · simp_all [resultInvariant, noopResult]
  · cases h1 : runGit ws w s ["fetch", "origin", cfg.branch.getD "main"] with
    | mk r1 s1 =>
      cases r1 with
      | error e1 => simp_all [resultInvariant, noopResult]
      | ok v1 =>
        cases h2 : runGit ws w s1 ["rev-parse", "HEAD"] with
        | mk r2 s2 =>
          cases r2 with
          | error e2 =>
            cases h3 : runGit ws w s2 ["checkout", "-b", cfg.branch.getD "main"] with
            | mk r3 s3 => cases r3 <;> simp_all [resultInvariant, noopResult]
          | ok v2 =>
            cases h4 : runGit ws w s2
                (pullArgs (resolveGitStrategy cfg.conflictStrategy) (cfg.branch.getD "main")) with
            | mk r4 s4 => cases r4 <;> simp_all [resultInvariant, noopResult]

/-- The result invariant holds for every `commit()` outcome. -/
theorem commit_inv (ws : String) (cfg : GitSyncConfig) (w : World)
    (m : Option String) (now : String) (s : St) :
    resultInvariant cfg (commit ws cfg w m now s).1 := by
  unfold commit
  split
  · simp_all [resultInvariant, noopResult]
  · cases hhc : hasChanges ws w s with
    | mk b s1 =>
      cases b with
      | false => simp_all [resultInvariant, noopResult]
      | true =>
        cases hgc : getChangedFiles ws w s1 with
        | mk changes s2 =>
          cases hsq : runGitSeq ws w s2
              (commitAddCalls cfg ++ commitResetCalls cfg ++
                [["commit", "-m", m.getD (buildCommitMessage cfg now)]]) with
          | mk r3 s3 => cases r3 <;> simp_all [resultInvariant, noopResult]

/-- The result invariant holds for every `push()` outcome. -/
theorem push_inv (ws : String) (cfg : GitSyncConfig) (w : World) (s : St) :
    resultInvariant cfg (push ws cfg w s).1 := by
  unfold push
  split
  · simp_all [resultInvariant, noopResult]
  · cases h1 : runGit ws w s ["push", "-u", "origin", cfg.branch.getD "main"] with
    | mk r1 s1 => cases r1 <;> simp_all [resultInvariant, noopResult]

/-- Reset (unstage) calls never add files to the index. -/
theorem mem_foldl_resets (M : String → String → Bool) (dirty : List String)
    (ws : String) :
    ∀ (es : List String) (idx : List String) (f : String),
      f ∈ List.foldl (stageStep M dirty) idx
          (es.map (fun p => Call.git ws ["reset", "--", p])) → f ∈ idx := by
  intro es
  induction es with
  | nil =>
    intro idx f h
    simpa using h
  | cons q rest ih =>
    intro idx f h
    simp only [List.map_cons, List.foldl_cons] at h
    have hm := ih _ f h
    simp only [stageStep] at hm
    exact (List.mem_filter.mp hm).1

/-- A file matching some exclude pattern is absent from the index once the
reset calls for those patterns have all run, whatever index the preceding
staging produced. -/
theorem not_mem_foldl_resets (M : String → String → Bool) (dirty : List String)
    (ws : String) :
    ∀ (es : List String) (idx : List String) (f q : String),
      q ∈ es → M q f = true →
      f ∉ List.foldl (stageStep M dirty) idx
          (es.map (fun p => Call.git ws ["reset", "--", p])) := by
  intro es
  induction es with
  | nil =>
    intro idx f q hq
    simp at hq
  | cons q0 rest ih =>
    intro idx f q hq hM hmem
    simp only [List.map_cons, List.foldl_cons] at hmem
    rcases List.mem_cons.mp hq with h | h
    · subst h
      have hidx := mem_foldl_resets M dirty ws rest _ f hmem
      simp only [stageStep] at hidx
      have := (List.mem_filter.mp hidx).2
      simp [hM] at this
    · exact ih _ f q h hM hmem

/-! ## Claim theorems -/

/-- C1: `pull()` resolves `conflictStrategy` to a merge directive exactly
as the table says — `local-wins → "ours"`, `remote-wins → "theirs"`,
`manual`/`timestamp-wins`/`merge-markers` → no directive, and any other
(or unset) value → `"ours"` — and the underlying `git pull` invocation in
the trace carries exactly the resolved directive (`pullArgs` inserts
`--strategy=<d>` when the directive is `some d` and nothing when it is
`none`). -/
theorem pull_resolves_and_passes_strategy (ws : String) (cfg : GitSyncConfig)
    (w : World) (s : St) (o1 e1 o2 e2 : String)
    (hap : cfg.autoPull = true)
    (h1 : w s.idx = ExecResult.ok o1 e1)
    (h2 : w (s.idx + 1) = ExecResult.ok o2 e2) :
    resolveGitStrategy (some "local-wins") = some "ours" ∧
    resolveGitStrategy (some "remote-wins") = some "theirs" ∧
    resolveGitStrategy (some "manual") = none ∧
    resolveGitStrategy (some "timestamp-wins") = none ∧
    resolveGitStrategy (some "merge-markers") = none ∧
    resolveGitStrategy none = some "ours" ∧
    (∀ str : String, str ≠ "local-wins" → str ≠ "remote-wins" → str ≠ "manual" →
        str ≠ "timestamp-wins" → str ≠ "merge-markers" →
        resolveGitStrategy (some str) = some "ours") ∧
    (pull ws cfg w s).2.trace =
      s.trace ++
        [Call.git ws ["fetch", "origin", cfg.branch.getD "main"],
         Call.git ws ["rev-parse", "HEAD"],
         Call.git ws (pullArgs (resolveGitStrategy cfg.conflictStrategy)
            (cfg.branch.getD "main"))] := by
  refine ⟨rfl, rfl, rfl, rfl, rfl, rfl, ?_, ?_⟩
  · intro str hs1 hs2 hs3 hs4 hs5
    unfold resolveGitStrategy
    split <;> simp_all
  · unfold pull
    simp only [hap, Bool.true_eq_false, if_false]
    rw [runGit_ok ws w s _ o1 e1 h1]
    dsimp only
    rw [runGit_ok ws w _ _ o2 e2 (by simpa using h2)]
    dsimp only
    cases h3 : w (s.idx + 1 + 1) with
    | ok o3 e3 =>
      rw [runGit_ok ws w _ _ o3 e3 (by simpa using h3)]
      simp
    | fail e3 =>
      rw [runGit_fail ws w _ _ e3 (by simpa using h3)]
      simp

/-- Witness for C1: with `remote-wins` configured, the third traced call is
`git pull --strategy=theirs origin main`. -/
theorem pull_resolves_and_passes_strategy_witness :
    (pull "/ws" cfgPull wOk st0).2.trace =
      [Call.git "/ws" ["fetch", "origin", "main"],
       Call.git "/ws" ["rev-parse", "HEAD"],
       Call.git "/ws" ["pull", "--strategy=theirs", "origin", "main"]] := by
  have h := (pull_resolves_and_passes_strategy "/ws" cfgPull wOk st0 "" "" "" ""
      rfl rfl rfl).2.2.2.2.2.2.2
  simpa [cfgPull, st0, pullArgs, resolveGitStrategy] using h

/-- C2: `sync()` short-circuits on the first failing phase: a failing pull
is returned unchanged and the run state stays exactly the pull's (so no
commit or push subprocess activity happens); a failing commit is returned
unchanged with no push activity; a failing push is returned unchanged with
no post-hook activity. -/
theorem sync_short_circuits (ws : String) (cfg : GitSyncConfig)
    (penv : List (String × String)) (w : World) (now : String) (s s1 : St)
    (hpre : syncPre ws cfg penv w s = (Except.ok (), s1)) :
    (∀ r s2, pull ws cfg w s1 = (r, s2) → r.success = false →
        sync ws cfg penv w now s = (Except.ok r, s2)) ∧
    (∀ r s2 rc s3, pull ws cfg w s1 = (r, s2) → r.success = true →
        commit ws cfg w none now s2 = (rc, s3) → rc.success = false →
        sync ws cfg penv w now s = (Except.ok rc, s3)) ∧
    (∀ r s2 rc s3 rp s4, pull ws cfg w s1 = (r, s2) → r.success = true →
        commit ws cfg w none now s2 = (rc, s3) → rc.success = true →
        push ws cfg w s3 = (rp, s4) → rp.success = false →
        sync ws cfg penv w now s = (Except.ok rp, s4)) := by
  refine ⟨?_, ?_, ?_⟩
  · intro r s2 hp hf
    unfold sync
    rw [hpre]
    dsimp only
    rw [hp]
    simp [hf]
  · intro r s2 rc s3 hp ht hc hf
    unfold sync
    rw [hpre]
    dsimp only
    rw [hp]
    dsimp only
    rw [if_neg (by simp [ht])]
    rw [hc]
    simp [hf]
  · intro r s2 rc s3 rp s4 hp ht hc hct hpu hf
    unfold sync
    rw [hpre]
    dsimp only
    rw [hp]
    dsimp only
    rw [if_neg (by simp [ht])]
    rw [hc]
    dsimp only
    rw [if_neg (by simp [hct])]
    rw [hpu]
    simp [hf]

/-- Witness for C2: a merge-conflict failure in the underlying `git pull`
makes `sync()` return the pull failure verbatim, with exactly the pull's
three subprocess calls in the trace. -/
theorem sync_short_circuits_witness :
    sync "/ws" cfgAP [] wPullFails "T0" st0 =
      (Except.ok
        { success := false, pulled := false, pushed := false, committed := false,
          error := some
            (execErrorString "git pull --strategy=ours origin main" "merge conflict") },
       ⟨3, [Call.git "/ws" ["fetch", "origin", "main"],
            Call.git "/ws" ["rev-parse", "HEAD"],
            Call.git "/ws" ["pull", "--strategy=ours", "origin", "main"]]⟩) := by
  exact (sync_short_circuits "/ws" cfgAP [] wPullFails "T0" st0 st0 rfl).1 _ _
    (by decide) (by decide)

/-- C3: every `GitSyncResult` produced by `pull()`, `commit()`, `push()`,
or a returning `sync()` satisfies the invariant: `success = false` implies
`error` is set and `pulled`, `pushed`, `committed` are all `false`; and
`success = true` with a configuration-disabled phase implies that phase's
boolean is `false`. -/
theorem phase_results_satisfy_invariant (ws : String) (cfg : GitSyncConfig)
    (penv : List (String × String)) (w : World) (m : Option String)
    (now : String) (s : St) :
    resultInvariant cfg (pull ws cfg w s).1 ∧
    resultInvariant cfg (commit ws cfg w m now s).1 ∧
    resultInvariant cfg (push ws cfg w s).1 ∧
    (∀ r s', sync ws cfg penv w now s = (Except.ok r, s') →
        resultInvariant cfg r) := by
  refine ⟨pull_inv ws cfg w s, commit_inv ws cfg w m now s, push_inv ws cfg w s, ?_⟩
  intro r s' h
  unfold sync at h
  cases hpre : syncPre ws cfg penv w s with
  | mk pr0 s1 =>
    rw [hpre] at h
    cases pr0 with
    | error e => simp at h
    | ok u =>
      dsimp only at h
      cases hp : pull ws cfg w s1 with
      | mk pr s2 =>
        rw [hp] at h
        dsimp only at h
        have hpi := pull_inv ws cfg w s1
        rw [hp] at hpi
        by_cases hps : pr.success = false
        · rw [if_pos hps] at h
          simp only [Prod.mk.injEq, Except.ok.injEq] at h
          obtain ⟨hr, _⟩ := h
          subst hr
          exact hpi
        · rw [if_neg hps] at h
          have hpt : pr.success = true := by
            revert hps
            cases pr.success <;> simp
          cases hc : commit ws cfg w none now s2 with
          | mk rc s3 =>
            rw [hc] at h
            dsimp only at h
            have hci := commit_inv ws cfg w none now s2
            rw [hc] at hci
            by_cases hcs : rc.success = false
            · rw [if_pos hcs] at h
              simp only [Prod.mk.injEq, Except.ok.injEq] at h
              obtain ⟨hr, _⟩ := h
              subst hr
              exact hci
            · rw [if_neg hcs] at h
              have hct : rc.success = true := by
                revert hcs
                cases rc.success <;> simp
              cases hpu : push ws cfg w s3 with
              | mk rp s4 =>
                rw [hpu] at h
                dsimp only at h
                have hpui := push_inv ws cfg w s3
                rw [hpu] at hpui
                by_cases hpus : rp.success = false
                · rw [if_pos hpus] at h
                  simp only [Prod.mk.injEq, Except.ok.injEq] at h
                  obtain ⟨hr, _⟩ := h
                  subst hr
                  exact hpui
                · rw [if_neg hpus] at h
                  have hput : rp.success = true := by
                    revert hpus
                    cases rp.success <;> simp
                  cases hpo : syncPost ws cfg penv w s4 with
                  | mk po s5 =>
                    rw [hpo] at h
                    cases po with
                    | error e => simp at h
                    | ok u2 =>
                      dsimp only at h
                      simp only [Prod.mk.injEq, Except.ok.injEq] at h
                      obtain ⟨hr, _⟩ := h
                      subst hr
                      constructor
                      · intro hfalse
                        simp at hfalse
                      · intro _
                        refine ⟨fun hap => ?_, fun hac => ?_, fun hau => ?_⟩
                        · exact (hpi.2 hpt).1 hap
                        · exact (hci.2 hct).2.1 hac
                        · exact (hpui.2 hput).2.2 hau

/-- Witness for C3: on a run whose `git pull` fails, the pull result has an
error message set and `pulled = false`. -/
theorem phase_results_satisfy_invariant_witness :
    (pull "/ws" cfgAP wPullFails st0).1.error.isSome = true ∧
    (pull "/ws" cfgAP wPullFails st0).1.pulled = false := by
  have h := (phase_results_satisfy_invariant "/ws" cfgAP [] wPullFails none "T0" st0).1
  exact ⟨(h.1 (by decide)).1, (h.1 (by decide)).2.1⟩

/-- Counterexample for C4 as stated: with auto-commit enabled and every
subprocess call exiting nonzero, `commit()` issues the status query (which
fails) yet returns `success = true` with no error — `hasChanges` swallows
the failure — instead of the claimed `success = false` result. -/
theorem commit_swallows_status_failure :
    commit "/ws" cfgAC wFail none "T0" st0 =
      (noopResult, ⟨1, [Call.git "/ws" ["status", "--porcelain"]]⟩) ∧
    wFail 0 = ExecResult.fail "boom" ∧
    noopResult.success = true ∧ noopResult.error = none := by
  exact ⟨by decide, rfl, rfl, rfl⟩

/-- C4 amended: a nonzero subprocess exit during a phase never propagates
as a thrown error (the phases are total functions into `GitSyncResult`);
outside the legitimate first-sync cases in `pull()` (failing fetch, failing
rev-parse) and the status queries inside `commit()`, the phase returns
`success = false` with an error string built from the failing command and
its captured error output — proved forward for the checkout after a
rev-parse miss, for the underlying `git pull` itself, for every command of
the staging/commit sequence, and for `git push`.  The status queries are
instead swallowed: a failing dirty-check makes `commit()` return the
`success = true` no-op, and a failing change-enumeration yields an empty
change list.  Conversely, every `success = false` phase result carries an
error string of that command-failed shape. -/
theorem phase_failures_convert_to_results (ws : String) (cfg : GitSyncConfig)
    (w : World) (m : Option String) (now : String) (s : St) :
    (∀ o0 e0 e1 e2, cfg.autoPull = true →
      w s.idx = ExecResult.ok o0 e0 →
      w (s.idx + 1) = ExecResult.fail e1 →
      w (s.idx + 2) = ExecResult.fail e2 →
      pull ws cfg w s =
        ({ success := false, pulled := false, pushed := false, committed := false,
           error := some (execErrorString
             (buildGitCmd ["checkout", "-b", cfg.branch.getD "main"]) e2) },
         ⟨s.idx + 3,
          s.trace ++
            [Call.git ws ["fetch", "origin", cfg.branch.getD "main"],
             Call.git ws ["rev-parse", "HEAD"],
             Call.git ws ["checkout", "-b", cfg.branch.getD "main"]]⟩)) ∧
    (∀ o0 e0 o1 e1 e2, cfg.autoPull = true →
      w s.idx = ExecResult.ok o0 e0 →
      w (s.idx + 1) = ExecResult.ok o1 e1 →
      w (s.idx + 2) = ExecResult.fail e2 →
      pull ws cfg w s =
        ({ success := false, pulled := false, pushed := false, committed := false,
           error := some (execErrorString
             (buildGitCmd (pullArgs (resolveGitStrategy cfg.conflictStrategy)
               (cfg.branch.getD "main"))) e2) },
         ⟨s.idx + 3,
          s.trace ++
            [Call.git ws ["fetch", "origin", cfg.branch.getD "main"],
             Call.git ws ["rev-parse", "HEAD"],
             Call.git ws (pullArgs (resolveGitStrategy cfg.conflictStrategy)
               (cfg.branch.getD "main"))]⟩)) ∧
    (∀ o0 e0 o1 e1 l1 args l2, cfg.autoCommit = true →
      w s.idx = ExecResult.ok o0 e0 → 0 < (trimStr o0).length →
      w (s.idx + 1) = ExecResult.ok o1 e1 →
      commitAddCalls cfg ++ commitResetCalls cfg ++
        [["commit", "-m", m.getD (buildCommitMessage cfg now)]] =
          l1 ++ args :: l2 →
      (∀ k, k < l1.length → ∃ o e, w (s.idx + 2 + k) = ExecResult.ok o e) →
      ∀ e, w (s.idx + 2 + l1.length) = ExecResult.fail e →
      commit ws cfg w m now s =
        ({ success := false, pulled := false, pushed := false, committed := false,
           error := some (execErrorString (buildGitCmd args) e) },
         ⟨s.idx + 2 + l1.length + 1,
          s.trace ++
            [Call.git ws ["status", "--porcelain"],
             Call.git ws ["status", "--porcelain"]] ++
            l1.map (fun a => Call.git ws a) ++ [Call.git ws args]⟩)) ∧
    (∀ e, cfg.autoPush = true → w s.idx = ExecResult.fail e →
      push ws cfg w s =
        ({ success := false, pulled := false, pushed := false, committed := false,
           error := some (execErrorString
             (buildGitCmd ["push", "-u", "origin", cfg.branch.getD "main"]) e) },
         ⟨s.idx + 1,
          s.trace ++
            [Call.git ws ["push", "-u", "origin", cfg.branch.getD "main"]]⟩)) ∧
    (∀ e, cfg.autoCommit = true → w s.idx = ExecResult.fail e →
      commit ws cfg w m now s =
        (noopResult,
         ⟨s.idx + 1, s.trace ++ [Call.git ws ["status", "--porcelain"]]⟩)) ∧
    (∀ e, w s.idx = ExecResult.fail e →
      getChangedFiles ws w s =
        ([], ⟨s.idx + 1, s.trace ++ [Call.git ws ["status", "--porcelain"]]⟩)) ∧
    ((pull ws cfg w s).1.success = false →
      ∃ args stderr, (pull ws cfg w s).1.error =
        some (execErrorString (buildGitCmd args) stderr)) ∧
    ((commit ws cfg w m now s).1.success = false →
      ∃ args stderr, (commit ws cfg w m now s).1.error =
        some (execErrorString (buildGitCmd args) stderr)) ∧
    ((push ws cfg w s).1.success = false →
      ∃ args stderr, (push ws cfg w s).1.error =
        some (execErrorString (buildGitCmd args) stderr)) := by
  refine ⟨?_, ?_, ?_, ?_, ?_, ?_, ?_, ?_, ?_⟩
  · intro o0 e0 e1 e2 hap hf hr hc
    unfold pull
    rw [if_neg (by simp [hap])]
    dsimp only
    rw [runGit_ok ws w s _ o0 e0 hf]
    dsimp only
    rw [runGit_fail ws w _ _ e1 (by simpa using hr)]
    dsimp only
    rw [runGit_fail ws w _ _ e2 (by simpa [Nat.add_assoc] using hc)]
    simp [List.append_assoc]
  · intro o0 e0 o1 e1 e2 hap hf hr hp
    unfold pull
    rw [if_neg (by simp [hap])]
    dsimp only
    rw [runGit_ok ws w s _ o0 e0 hf]
    dsimp only
    rw [runGit_ok ws w _ _ o1 e1 (by simpa using hr)]
    dsimp only
    rw [runGit_fail ws w _ _ e2 (by simpa [Nat.add_assoc] using hp)]
    simp [List.append_assoc]
  · intro o0 e0 o1 e1 l1 args l2 hac h0 hdirty h1 hsplit hpre e he
    have hT1 : hasChanges ws w s =
        (true, ⟨s.idx + 1, s.trace ++ [Call.git ws ["status", "--porcelain"]]⟩) := by
      unfold hasChanges
      rw [runGit_ok ws w s _ o0 e0 h0]
      simp [hdirty]
    have hT2 : getChangedFiles ws w
          ⟨s.idx + 1, s.trace ++ [Call.git ws ["status", "--porcelain"]]⟩ =
        (((splitLines (trimStr o1)).filter (fun l => l ≠ "")).map (dropStr 3),
         ⟨s.idx + 2,
          s.trace ++ [Call.git ws ["status", "--porcelain"],
            Call.git ws ["status", "--porcelain"]]⟩) := by
      unfold getChangedFiles
      rw [runGit_ok ws w _ _ o1 e1 (by simpa using h1)]
      simp
    have hseq := runGitSeq_fail_at ws w l1 args l2
        ⟨s.idx + 2,
         s.trace ++ [Call.git ws ["status", "--porcelain"],
           Call.git ws ["status", "--porcelain"]]⟩
        (by intro k hk; simpa using hpre k hk) e (by simpa using he)
    unfold commit
    rw [if_neg (by simp [hac]), hT1]
    dsimp only
    rw [hT2]
    dsimp only
    rw [hsplit, hseq]
  · intro e hau hf
    unfold push
    rw [if_neg (by simp [hau])]
    rw [runGit_fail ws w s _ e hf]
  · intro e hac hf
    unfold commit
    rw [if_neg (by simp [hac])]
    unfold hasChanges
    rw [runGit_fail ws w s _ e hf]
  · intro e hf
    unfold getChangedFiles
    rw [runGit_fail ws w s _ e hf]
  · unfold pull
    split
    · simp [noopResult]
    · cases h1 : runGit ws w s ["fetch", "origin", cfg.branch.getD "main"] with
      | mk r1 s1 =>
        cases r1 with
        | error e1 => simp [h1, noopResult]
        | ok v1 =>
          cases h2 : runGit ws w s1 ["rev-parse", "HEAD"] with
          | mk r2 s2 =>
            cases r2 with
            | error e2 =>
              cases h3 : runGit ws w s2 ["checkout", "-b", cfg.branch.getD "main"] with
              | mk r3 s3 =>
                cases r3 with
                | ok v3 => simp [h1, h2, h3, noopResult]
                | error e3 =>
                  intro _
                  obtain ⟨stderr, hst⟩ :=
                    runGit_error_shape ws w s2 _ e3 (by rw [h3])
                  exact ⟨["checkout", "-b", cfg.branch.getD "main"], stderr,
                    by simp [h1, h2, h3, hst]⟩
            | ok v2 =>
              cases h4 : runGit ws w s2
                  (pullArgs (resolveGitStrategy cfg.conflictStrategy)
                    (cfg.branch.getD "main")) with
              | mk r4 s4 =>
                cases r4 with
                | ok v4 => simp [h1, h2, h4]
                | error e4 =>
                  intro _
                  obtain ⟨stderr, hst⟩ :=
                    runGit_error_shape ws w s2 _ e4 (by rw [h4])
                  exact ⟨pullArgs (resolveGitStrategy cfg.conflictStrategy)
                      (cfg.branch.getD "main"), stderr,
                    by simp [h1, h2, h4, hst]⟩
  · unfold commit
    split
    · simp [noopResult]
    · cases hhc : hasChanges ws w s with
      | mk b s1 =>
        cases b with
        | false => simp [hhc, noopResult]
        | true =>
          cases hgc : getChangedFiles ws w s1 with
          | mk changes s2 =>
            cases hsq : runGitSeq ws w s2
                (commitAddCalls cfg ++ (commitResetCalls cfg ++
                  [["commit", "-m", m.getD (buildCommitMessage cfg now)]])) with
            | mk r3 s3 =>
              cases r3 with
              | ok v3 => simp [hhc, hgc, hsq]
              | error e3 =>
                intro _
                obtain ⟨args, stderr, hst⟩ :=
                  runGitSeq_error_shape ws w _ s2 e3 (by rw [hsq])
                exact ⟨args, stderr, by simp [hhc, hgc, hsq, hst]⟩
  · unfold push
    split
    · simp [noopResult]
    · cases h1 : runGit ws w s ["push", "-u", "origin", cfg.branch.getD "main"] with
      | mk r1 s1 =>
        cases r1 with
        | ok v1 => simp [h1]
        | error e1 =>
          intro _
          obtain ⟨stderr, hst⟩ := runGit_error_shape ws w s _ e1 (by rw [h1])
          exact ⟨["push", "-u", "origin", cfg.branch.getD "main"], stderr,
            by simp [h1, hst]⟩

/-- Witness for the amended C4: a failing `git push` converts to a
`success = false` result carrying the command-failed error string built
from the push command and its captured stderr. -/
theorem phase_failures_convert_to_results_witness :
    push "/ws" cfgPush wFail st0 =
      ({ success := false, pulled := false, pushed := false, committed := false,
         error := some (execErrorString
           (buildGitCmd ["push", "-u", "origin", "main"]) "boom") },
       ⟨0 + 1, [] ++ [Call.git "/ws" ["push", "-u", "origin", "main"]]⟩) :=
  (phase_failures_convert_to_results "/ws" cfgPush wFail none "T0" st0).2.2.2.1
    "boom" rfl rfl

/-- Counterexample for C5 as stated: a failing pre-sync hook does not
short-circuit `sync()` into a phase-failure `GitSyncResult`; `sync()`
evaluates to a thrown error (`Except.error`), and the only subprocess
activity is the hook call itself (so Pull indeed never ran, but no result
object is produced). -/
theorem sync_prehook_failure_throws_cx :
    sync "/ws" cfgPreHook [] wFail "T0" st0 =
      (Except.error (execErrorString "/hooks/pre.sh" "boom"),
       ⟨1, [Call.hook "/hooks/pre.sh" "/ws" (hookEnv [] "/ws" "pre")]⟩) := by
  rfl

/-- C5 amended: a failure of the configured pre-sync hook propagates out of
`sync()` as an uncaught thrown error — not folded into a `GitSyncResult` —
and neither Pull nor any later phase runs (the trace gains only the hook
call); a failure of the configured post-sync hook after all phases
succeeded likewise propagates as an uncaught thrown error. -/
theorem sync_hook_failures_throw (ws : String) (cfg : GitSyncConfig)
    (penv : List (String × String)) (w : World) (now : String) (s s1 : St) :
    (∀ p e, cfg.preSync = some p → w s.idx = ExecResult.fail e →
        sync ws cfg penv w now s =
          (Except.error (execErrorString p e),
           ⟨s.idx + 1, s.trace ++ [Call.hook p ws (hookEnv penv ws "pre")]⟩)) ∧
    (∀ p e r s2 rc s3 rp s4,
        syncPre ws cfg penv w s = (Except.ok (), s1) →
        pull ws cfg w s1 = (r, s2) → r.success = true →
        commit ws cfg w none now s2 = (rc, s3) → rc.success = true →
        push ws cfg w s3 = (rp, s4) → rp.success = true →
        cfg.postSync = some p → w s4.idx = ExecResult.fail e →
        sync ws cfg penv w now s =
          (Except.error (execErrorString p e),
           ⟨s4.idx + 1, s4.trace ++ [Call.hook p ws (hookEnv penv ws "post")]⟩)) := by
  constructor
  · intro p e hp hf
    unfold sync syncPre
    rw [hp]
    unfold runHook
    rw [hf]
  · intro p e r s2 rc s3 rp s4 hpre hpl ht hc hct hpu hput hpo hf
    unfold sync
    rw [hpre]
    dsimp only
    rw [hpl]
    dsimp only
    rw [if_neg (by simp [ht])]
    rw [hc]
    dsimp only
    rw [if_neg (by simp [hct])]
    rw [hpu]
    dsimp only
    rw [if_neg (by simp [hput])]
    unfold syncPost
    rw [hpo]
    unfold runHook
    rw [hf]

/-- Witness for the amended C5: the pre-hook branch evaluated at a concrete
failing world. -/
theorem sync_hook_failures_throw_witness :
    sync "/ws" cfgPreHook [] wFail "T0" st0 =
      (Except.error (execErrorString "/hooks/pre.sh" "boom"),
       ⟨0 + 1, [] ++ [Call.hook "/hooks/pre.sh" "/ws" (hookEnv [] "/ws" "pre")]⟩) :=
  (sync_hook_failures_throw "/ws" cfgPreHook [] wFail "T0" st0 st0).1
    "/hooks/pre.sh" "boom" rfl rfl

/-- Counterexample for C6 as stated: with an empty ambient environment the
hook's environment holds `OPENCLAW_WORKSPACE` and `OPENCLAW_SYNC_TYPE` and
contains no `WORKSPACE` or `SYNC_TYPE` variable at all. -/
theorem hook_env_names_cx :
    runHook "/ws" [] wOk st0 "/hooks/pre.sh" "pre" =
      (Except.ok (),
       ⟨1, [Call.hook "/hooks/pre.sh" "/ws"
          [("OPENCLAW_WORKSPACE", "/ws"), ("OPENCLAW_SYNC_TYPE", "pre")]]⟩) ∧
    (hookEnv [] "/ws" "pre").lookup "WORKSPACE" = none ∧
    (hookEnv [] "/ws" "pre").lookup "SYNC_TYPE" = none := by
  exact ⟨rfl, by decide, by decide⟩

/-- C6 amended: every hook invocation runs the hook executable with working
directory equal to the workspace and environment equal to the ambient
process environment plus `OPENCLAW_WORKSPACE=<workspace path>` and
`OPENCLAW_SYNC_TYPE=<"pre" | "post">`; `sync()` wires the pre-sync hook
with type `"pre"` and the post-sync hook with type `"post"`. -/
theorem hook_invocation_contract (ws : String) (penv : List (String × String))
    (w : World) (s : St) (p ty : String) (cfg : GitSyncConfig) :
    (runHook ws penv w s p ty).2.trace =
      s.trace ++ [Call.hook p ws
        (penv ++ [("OPENCLAW_WORKSPACE", ws), ("OPENCLAW_SYNC_TYPE", ty)])] ∧
    (cfg.preSync = some p → syncPre ws cfg penv w s = runHook ws penv w s p "pre") ∧
    (cfg.postSync = some p → syncPost ws cfg penv w s = runHook ws penv w s p "post") := by
  refine ⟨?_, fun h => by simp [syncPre, h], fun h => by simp [syncPost, h]⟩
  unfold runHook hookEnv
  cases hw : w s.idx <;> simp [hw]

/-- Witness for the amended C6: the pre-sync wiring at a configuration with
a pre-sync hook. -/
theorem hook_invocation_contract_witness :
    syncPre "/ws" cfgPreHook [] wOk st0 =
      runHook "/ws" [] wOk st0 "/hooks/pre.sh" "pre" :=
  (hook_invocation_contract "/ws" [] wOk st0 "/hooks/pre.sh" "pre" cfgPreHook).2.1 rfl

/-- C7: with changes present, `commit()` stages one `git add <pattern>` per
configured path pattern, in order, when `paths` is non-empty — everything
via `git add .` otherwise — then unstages each `excludePaths` pattern in
order via `git reset -- <pattern>`, strictly after all staging, and only
then runs `git commit -m`; consequently, under the staging semantics, a
file matching any exclude pattern is absent from the index the commit call
sees, whatever include patterns it also matches. -/
theorem commit_staging_order_and_exclude_wins (ws : String)
    (cfg : GitSyncConfig) (w : World) (m : Option String) (now : String)
    (s : St) (o0 e0 o1 e1 : String)
    (hac : cfg.autoCommit = true)
    (h0 : w s.idx = ExecResult.ok o0 e0)
    (hdirty : 0 < (trimStr o0).length)
    (h1 : w (s.idx + 1) = ExecResult.ok o1 e1)
    (hrest : ∀ k, 2 ≤ k → ∃ o e, w (s.idx + k) = ExecResult.ok o e) :
    (∀ ps es, cfg.paths = some ps → 0 < ps.length → cfg.excludePaths = some es →
      (commit ws cfg w m now s).2.trace =
        s.trace ++
          [Call.git ws ["status", "--porcelain"],
           Call.git ws ["status", "--porcelain"]] ++
          ps.map (fun p => Call.git ws ["add", p]) ++
          es.map (fun p => Call.git ws ["reset", "--", p]) ++
          [Call.git ws ["commit", "-m", m.getD (buildCommitMessage cfg now)]] ∧
      (commit ws cfg w m now s).1.committed = true) ∧
    (∀ es, cfg.paths = none → cfg.excludePaths = some es →
      (commit ws cfg w m now s).2.trace =
        s.trace ++
          [Call.git ws ["status", "--porcelain"],
           Call.git ws ["status", "--porcelain"]] ++
          [Call.git ws ["add", "."]] ++
          es.map (fun p => Call.git ws ["reset", "--", p]) ++
          [Call.git ws ["commit", "-m", m.getD (buildCommitMessage cfg now)]]) ∧
    (∀ (M : String → String → Bool) (dirty : List String)
        (ps es : List String) (f q : String), q ∈ es → M q f = true →
      f ∉ stagedAfter M dirty
          (ps.map (fun p => Call.git ws ["add", p]) ++
           es.map (fun p => Call.git ws ["reset", "--", p]))) := by
  have hT1 : hasChanges ws w s =
      (true, ⟨s.idx + 1, s.trace ++ [Call.git ws ["status", "--porcelain"]]⟩) := by
    unfold hasChanges
    rw [runGit_ok ws w s _ o0 e0 h0]
    simp [hdirty]
  have hT2 : getChangedFiles ws w
        ⟨s.idx + 1, s.trace ++ [Call.git ws ["status", "--porcelain"]]⟩ =
      (((splitLines (trimStr o1)).filter (fun l => l ≠ "")).map (dropStr 3),
       ⟨s.idx + 2,
        s.trace ++ [Call.git ws ["status", "--porcelain"],
          Call.git ws ["status", "--porcelain"]]⟩) := by
    unfold getChangedFiles
    rw [runGit_ok ws w _ _ o1 e1 (by simpa using h1)]
    simp
  have henv : ∀ (L : List (List String)) k, k < L.length →
      ∃ o e, w ((s.idx + 2) + k) = ExecResult.ok o e := by
    intro L k _
    obtain ⟨o, e, ho⟩ := hrest (2 + k) (by omega)
    exact ⟨o, e, by simpa [Nat.add_assoc] using ho⟩
  refine ⟨?_, ?_, ?_⟩
  · intro ps es hps hlen hes
    have hadd : commitAddCalls cfg = ps.map (fun p => ["add", p]) := by
      simp [commitAddCalls, hps, hlen]
    have hres : commitResetCalls cfg = es.map (fun p => ["reset", "--", p]) := by
      rcases es with _ | ⟨q, es'⟩
      · simp [commitResetCalls, hes]
      · simp [commitResetCalls, hes]
    have hseq := runGitSeq_ok ws w
        (ps.map (fun p => ["add", p]) ++ es.map (fun p => ["reset", "--", p]) ++
          [["commit", "-m", m.getD (buildCommitMessage cfg now)]])
        ⟨s.idx + 2,
         s.trace ++ [Call.git ws ["status", "--porcelain"],
           Call.git ws ["status", "--porcelain"]]⟩
        (henv _)
    constructor
    · unfold commit
      rw [if_neg (by simp [hac]), hT1]
      dsimp only
      rw [hT2]
      dsimp only
      rw [hadd, hres, hseq]
      simp [List.append_assoc, List.map_append, List.map_map, Function.comp_def]
    · unfold commit
      rw [if_neg (by simp [hac]), hT1]
      dsimp only
      rw [hT2]
      dsimp only
      rw [hadd, hres, hseq]
  · intro es hps hes
    have hadd : commitAddCalls cfg = [["add", "."]] := by
      simp [commitAddCalls, hps]
    have hres : commitResetCalls cfg = es.map (fun p => ["reset", "--", p]) := by
      rcases es with _ | ⟨q, es'⟩
      · simp [commitResetCalls, hes]
      · simp [commitResetCalls, hes]
    have hseq := runGitSeq_ok ws w
        ([["add", "."]] ++ es.map (fun p => ["reset", "--", p]) ++
          [["commit", "-m", m.getD (buildCommitMessage cfg now)]])
        ⟨s.idx + 2,
         s.trace ++ [Call.git ws ["status", "--porcelain"],
           Call.git ws ["status", "--porcelain"]]⟩
        (henv _)
    unfold commit
    rw [if_neg (by simp [hac]), hT1]
    dsimp only
    rw [hT2]
    dsimp only
    rw [hadd, hres, hseq]
    simp [List.append_assoc, List.map_append, List.map_map, Function.comp_def]
  · intro M dirty ps es f q hq hM
    unfold stagedAfter
    rw [List.foldl_append]
    exact not_mem_foldl_resets M dirty ws es _ f q hq hM

/-- Witness for C7: with `paths = [docs/a, docs/b]` and `excludePaths =
[docs/a/x]`, the staged calls are the two adds in order, then the reset,
then the commit. -/
theorem commit_staging_order_and_exclude_wins_witness :
    (commit "/ws" cfgPaths wChanges none "T0" st0).2.trace =
      [Call.git "/ws" ["status", "--porcelain"],
       Call.git "/ws" ["status", "--porcelain"],
       Call.git "/ws" ["add", "docs/a"],
       Call.git "/ws" ["add", "docs/b"],
       Call.git "/ws" ["reset", "--", "docs/a/x"],
       Call.git "/ws" ["commit", "-m", "chore: agent memory sync T0"]] := by
  have h := (commit_staging_order_and_exclude_wins "/ws" cfgPaths wChanges
      none "T0" st0 "M  a.md\nM  docs/a/x.md" "" "M  a.md\nM  docs/a/x.md" ""
      rfl rfl (by decide) rfl
      (fun k _ => ⟨"M  a.md\nM  docs/a/x.md", "", rfl⟩)).1
      ["docs/a", "docs/b"] ["docs/a/x"] rfl (by decide) rfl
  exact h.1.trans (by decide)

/-- C8: with auto-pull enabled — a failing fetch (remote branch absent)
yields `{success := true, pulled := false}` with only the fetch call traced
(no merge attempted); a successful fetch followed by a failing
`rev-parse HEAD` (no local commits yet) checks out the tracked branch and
yields the same result, again with no pull call traced; and when fetch and
rev-parse both succeed, the actual pull against `origin/<branch>` runs and
its success yields `pulled := true`. -/
theorem pull_first_sync_cases (ws : String) (cfg : GitSyncConfig) (w : World)
    (s : St) (hap : cfg.autoPull = true) :
    (∀ e, w s.idx = ExecResult.fail e →
      pull ws cfg w s =
        (noopResult,
         ⟨s.idx + 1,
          s.trace ++ [Call.git ws ["fetch", "origin", cfg.branch.getD "main"]]⟩)) ∧
    (∀ o0 e0 e1 o2 e2, w s.idx = ExecResult.ok o0 e0 →
      w (s.idx + 1) = ExecResult.fail e1 →
      w (s.idx + 2) = ExecResult.ok o2 e2 →
      pull ws cfg w s =
        (noopResult,
         ⟨s.idx + 3,
          s.trace ++
            [Call.git ws ["fetch", "origin", cfg.branch.getD "main"],
             Call.git ws ["rev-parse", "HEAD"],
             Call.git ws ["checkout", "-b", cfg.branch.getD "main"]]⟩)) ∧
    (∀ o0 e0 o1 e1 o2 e2, w s.idx = ExecResult.ok o0 e0 →
      w (s.idx + 1) = ExecResult.ok o1 e1 →
      w (s.idx + 2) = ExecResult.ok o2 e2 →
      pull ws cfg w s =
        ({ success := true, pulled := true, pushed := false, committed := false },
         ⟨s.idx + 3,
          s.trace ++
            [Call.git ws ["fetch", "origin", cfg.branch.getD "main"],
             Call.git ws ["rev-parse", "HEAD"],
             Call.git ws (pullArgs (resolveGitStrategy cfg.conflictStrategy)
               (cfg.branch.getD "main"))]⟩)) := by
  refine ⟨?_, ?_, ?_⟩
  · intro e hf
    unfold pull
    rw [if_neg (by simp [hap])]
    dsimp only
    rw [runGit_fail ws w s _ e hf]
  · intro o0 e0 e1 o2 e2 hf hr hc
    unfold pull
    rw [if_neg (by simp [hap])]
    dsimp only
    rw [runGit_ok ws w s _ o0 e0 hf]
    dsimp only
    rw [runGit_fail ws w _ _ e1 (by simpa using hr)]
    dsimp only
    rw [runGit_ok ws w _ _ o2 e2 (by simpa [Nat.add_assoc] using hc)]
    simp [List.append_assoc]
  · intro o0 e0 o1 e1 o2 e2 hf hr hp
    unfold pull
    rw [if_neg (by simp [hap])]
    dsimp only
    rw [runGit_ok ws w s _ o0 e0 hf]
    dsimp only
    rw [runGit_ok ws w _ _ o1 e1 (by simpa using hr)]
    dsimp only
    rw [runGit_ok ws w _ _ o2 e2 (by simpa [Nat.add_assoc] using hp)]
    simp [List.append_assoc]

/-- Witness for C8: a failing fetch on a fresh state returns the no-op
success with only the fetch call traced. -/
theorem pull_first_sync_cases_witness :
    pull "/ws" cfgAP wFail st0 =
      (noopResult, ⟨0 + 1, [] ++ [Call.git "/ws" ["fetch", "origin", "main"]]⟩) :=
  (pull_first_sync_cases "/ws" cfgAP wFail st0 rfl).1 "boom" rfl

/-- Counterexample for C9 as stated: a configuration with all three phases
disabled but a failing pre-sync hook makes `sync()` throw instead of
returning `{success := true, pulled := false, committed := false,
pushed := false}`. -/
theorem sync_disabled_phases_cx :
    sync "/ws" cfgOffHook [] wFail "T0" st0 =
      (Except.error (execErrorString "/hooks/pre9.sh" "boom"),
       ⟨1, [Call.hook "/hooks/pre9.sh" "/ws" (hookEnv [] "/ws" "pre")]⟩) := by
  rfl

/-- C9 amended: with `autoPull`, `autoCommit` and `autoPush` all `false`,
each phase is a no-op returning `success = true` with its own boolean
`false` and the run state untouched; and `sync()` returns
`{success := true, pulled := false, committed := false, pushed := false}`
provided the configured hooks (if any) succeed — in particular always when
no hooks are configured. -/
theorem sync_all_disabled_noop (ws : String) (cfg : GitSyncConfig)
    (penv : List (String × String)) (w : World) (m : Option String)
    (now : String) (s s1 s2 : St)
    (hp : cfg.autoPull = false) (hc : cfg.autoCommit = false)
    (hu : cfg.autoPush = false) :
    pull ws cfg w s = (noopResult, s) ∧
    commit ws cfg w m now s = (noopResult, s) ∧
    push ws cfg w s = (noopResult, s) ∧
    (syncPre ws cfg penv w s = (Except.ok (), s1) →
     syncPost ws cfg penv w s1 = (Except.ok (), s2) →
     sync ws cfg penv w now s = (Except.ok noopResult, s2)) := by
  refine ⟨by simp [pull, hp], by simp [commit, hc], by simp [push, hu], ?_⟩
  intro hpre hpost
  unfold sync
  rw [hpre]
  dsimp only
  rw [show pull ws cfg w s1 = (noopResult, s1) from by simp [pull, hp]]
  dsimp only
  rw [if_neg (by simp [noopResult])]
  rw [show commit ws cfg w none now s1 = (noopResult, s1) from by simp [commit, hc]]
  dsimp only
  rw [if_neg (by simp [noopResult])]
  rw [show push ws cfg w s1 = (noopResult, s1) from by simp [push, hu]]
  dsimp only
  rw [if_neg (by simp [noopResult])]
  rw [hpost]
  rfl

/-- Witness for the amended C9: with no hooks configured and all phases
disabled, `sync()` is the identity no-op success. -/
theorem sync_all_disabled_noop_witness :
    sync "/ws" cfgOff [] wOk "T0" st0 = (Except.ok noopResult, st0) :=
  (sync_all_disabled_noop "/ws" cfgOff [] wOk none "T0" st0 st0 st0
    rfl rfl rfl).2.2.2 rfl rfl

/-- C10: the command builder wraps an argument in double quotes exactly
when it contains a space and applies no other escaping; consequently some
arguments are not passed to the subprocess intact — re-splitting the
command built for the commit message `say "hi" now` hands the subprocess
`say hi now` instead. -/
theorem quoting_space_only_and_lossy (a : String) :
    (containsSpace a = true → quoteArg a = "\"" ++ a ++ "\"") ∧
    (containsSpace a = false → quoteArg a = a) ∧
    shellSplit (buildGitCmd ["commit", "-m", "say \"hi\" now"]) =
      ["git", "commit", "-m", "say hi now"] ∧
    "say hi now" ≠ "say \"hi\" now" := by
  exact ⟨fun h => by simp [quoteArg, h], fun h => by simp [quoteArg, h],
    by decide, by decide⟩

/-- Witness for C10: the quoting rule evaluated at a spaced and an unspaced
argument. -/
theorem quoting_space_only_and_lossy_witness :
    quoteArg "a b" = "\"" ++ "a b" ++ "\"" ∧ quoteArg "ab" = "ab" :=
  ⟨(quoting_space_only_and_lossy "a b").1 (by decide),
   (quoting_space_only_and_lossy "ab").2.1 (by decide)⟩

end GitSync
